import Mathlib

/-!
Verification development for the funding-rate retrieval and reconciliation
engine of the FURRY repository.

The embedding models, from the source:

* `funding_rates_arbitrage.py`:
  - `get_hyperliquid_funding_history_paginated` — a cursor-advancing paginated
    fetch loop with a consecutive-failure retry budget (`hyperLoop`);
  - `get_binance_funding_history` — a paginated fetch loop whose budget counts
    consecutive empty pages and which retries transport failures without
    counting them (`binanceLoop`);
  - `compare_funding_rates_over_time` — the two-pointer tolerance merge-join
    (`reconcile`) and the per-pair annualization (`annualizedDiffE`).
* `src/data/collectors.py`:
  - `BinanceDataCollector.get_historical_funding_rates` (`binanceCollectorLoop`);
  - `HyperliquidDataCollector.get_historical_funding_rates` (`hyperCollectorLoop`).

A raw record from either venue carries a millisecond timestamp (field `time`
on Hyperliquid, `fundingTime` on Binance) and a funding rate (`fundingRate`);
both are modelled by `FundingRecord`.  A remote source is a function from the
index of the fetch attempt to the outcome of that attempt: a transport failure
(non-2xx status, network exception or malformed payload — the Python code
routes all of these through one `except` arm) or a parsed list of records.

The Python `while` loops are embedded with explicit fuel: a loop call returns
`none` when the loop is still running after `fuel` iterations, and
`some (records, attempts)` when the loop exited, where `attempts` is the
number of fetch attempts issued.
-/

/-- One funding-rate observation: millisecond timestamp and per-period rate.
On Hyperliquid the JSON fields are `time` and `fundingRate`; on Binance they
are `fundingTime` and `fundingRate`.  Python floats are modelled as `ℚ`. -/
structure FundingRecord where
  time : Int
  rate : ℚ
deriving DecidableEq, Repr

/-- Outcome of one fetch attempt against a remote source: a transport failure
(any exception in the `try` body: non-200 status, request exception, JSON
parse error) or a successfully parsed list of records. -/
inductive FetchResult where
  | fail : FetchResult
  | ok : List FundingRecord → FetchResult
deriving DecidableEq, Repr

/-- A remote source, as seen by a retrieval run: the outcome of the k-th
fetch attempt of the run. -/
def Source : Type := ℕ → FetchResult

/-- `24 * 60 * 60 * 1000`: the one-day probe interval used when a page is
empty. -/
def oneDayMs : Int := 24 * 60 * 60 * 1000

/-- `all_records.sort(key=lambda x: x["time"])`: Python's stable sort by the
timestamp field, modelled by the stable `List.mergeSort`. -/
def sortByTime (l : List FundingRecord) : List FundingRecord :=
  l.mergeSort (fun a b => decide (a.time ≤ b.time))

/-- The `while current_start <= end_time` loop of
`get_hyperliquid_funding_history_paginated`.  State: remaining `fuel`,
`currentStart` cursor, `retries` counter, `acc` accumulator (`all_records`),
`attempt` index of the next fetch.  Branches, in source order:
empty page → cursor moves forward one day (`continue`); non-empty page →
records appended, then full page (`len(data) >= max_records`) → cursor set
past the last record's time and `retries` reset, short page → `break`;
exception → `retries` incremented, `break` once it exceeds `max_retries`. -/
def hyperLoop (src : Source) (endTime : Int) (maxRecords maxRetries : ℕ) :
    ℕ → Int → ℕ → List FundingRecord → ℕ → Option (List FundingRecord × ℕ)
  | 0, _, _, _, _ => none
  | fuel + 1, currentStart, retries, acc, attempt =>
    if endTime < currentStart then some (acc, attempt)
    else
      match src attempt with
      | .fail =>
          if maxRetries < retries + 1 then some (acc, attempt + 1)
          else hyperLoop src endTime maxRecords maxRetries fuel
                 currentStart (retries + 1) acc (attempt + 1)
      | .ok [] =>
          hyperLoop src endTime maxRecords maxRetries fuel
            (currentStart + oneDayMs) retries acc (attempt + 1)
      | .ok (d :: ds) =>
          if maxRecords ≤ (d :: ds).length then
            hyperLoop src endTime maxRecords maxRetries fuel
              (((d :: ds).getLast (List.cons_ne_nil d ds)).time + 1) 0
              (acc ++ (d :: ds)) (attempt + 1)
          else some (acc ++ (d :: ds), attempt + 1)

/-- `get_hyperliquid_funding_history_paginated` with explicit window: run the
loop from `startTime` and return the accumulated records sorted by time. -/
def hyperRetrieve (src : Source) (startTime endTime : Int)
    (maxRecords maxRetries fuel : ℕ) : Option (List FundingRecord × ℕ) :=
  (hyperLoop src endTime maxRecords maxRetries fuel startTime 0 [] 0).map
    (fun r => (sortByTime r.1, r.2))

/-- The `while current_start <= end_time` loop of
`get_binance_funding_history`.  Branches, in source order: empty page →
`retry_count` incremented, `break` once it exceeds `max_retries`, otherwise
retry the same cursor; non-empty page → `retry_count` reset, records
appended, cursor set past the last record's `fundingTime`; exception →
`continue` with no state change (the failure is not counted). -/
def binanceLoop (src : Source) (endTime : Int) (maxRetries : ℕ) :
    ℕ → Int → ℕ → List FundingRecord → ℕ → Option (List FundingRecord × ℕ)
  | 0, _, _, _, _ => none
  | fuel + 1, currentStart, retryCount, acc, attempt =>
    if endTime < currentStart then some (acc, attempt)
    else
      match src attempt with
      | .fail =>
          binanceLoop src endTime maxRetries fuel
            currentStart retryCount acc (attempt + 1)
      | .ok [] =>
          if maxRetries < retryCount + 1 then some (acc, attempt + 1)
          else binanceLoop src endTime maxRetries fuel
                 currentStart (retryCount + 1) acc (attempt + 1)
      | .ok (d :: ds) =>
          binanceLoop src endTime maxRetries fuel
            (((d :: ds).getLast (List.cons_ne_nil d ds)).time + 1) 0
            (acc ++ (d :: ds)) (attempt + 1)

/-- `get_binance_funding_history` with explicit window: run the loop from
`startTime` and return the accumulated records sorted by time. -/
def binanceRetrieve (src : Source) (startTime endTime : Int)
    (maxRetries fuel : ℕ) : Option (List FundingRecord × ℕ) :=
  (binanceLoop src endTime maxRetries fuel startTime 0 [] 0).map
    (fun r => (sortByTime r.1, r.2))

/-- The fetch loop of `BinanceDataCollector.get_historical_funding_rates`
(`src/data/collectors.py`).  Empty page → cursor moves forward one day;
non-empty page → records appended, cursor set past the last record;
exception → `break` (no retry budget at all). -/
def binanceCollectorLoop (src : Source) (endTime : Int) :
    ℕ → Int → List FundingRecord → ℕ → Option (List FundingRecord × ℕ)
  | 0, _, _, _ => none
  | fuel + 1, currentStart, acc, attempt =>
    if endTime < currentStart then some (acc, attempt)
    else
      match src attempt with
      | .fail => some (acc, attempt + 1)
      | .ok [] =>
          binanceCollectorLoop src endTime fuel
            (currentStart + oneDayMs) acc (attempt + 1)
      | .ok (d :: ds) =>
          binanceCollectorLoop src endTime fuel
            (((d :: ds).getLast (List.cons_ne_nil d ds)).time + 1)
            (acc ++ (d :: ds)) (attempt + 1)

/-- `BinanceDataCollector.get_historical_funding_rates`: run the loop and
return the accumulated records sorted by `fundingTime`. -/
def binanceCollectorRetrieve (src : Source) (startTime endTime : Int)
    (fuel : ℕ) : Option (List FundingRecord × ℕ) :=
  (binanceCollectorLoop src endTime fuel startTime [] 0).map
    (fun r => (sortByTime r.1, r.2))

/-- The fetch loop of `HyperliquidDataCollector.get_historical_funding_rates`
(`src/data/collectors.py`).  Empty page → cursor moves forward one day;
non-empty full page (`len(data) >= limit`) → cursor set past the last record;
non-empty short page → `break`; exception → `break`. -/
def hyperCollectorLoop (src : Source) (endTime : Int) (limit : ℕ) :
    ℕ → Int → List FundingRecord → ℕ → Option (List FundingRecord × ℕ)
  | 0, _, _, _ => none
  | fuel + 1, currentStart, acc, attempt =>
    if endTime < currentStart then some (acc, attempt)
    else
      match src attempt with
      | .fail => some (acc, attempt + 1)
      | .ok [] =>
          hyperCollectorLoop src endTime limit fuel
            (currentStart + oneDayMs) acc (attempt + 1)
      | .ok (d :: ds) =>
          if limit ≤ (d :: ds).length then
            hyperCollectorLoop src endTime limit fuel
              (((d :: ds).getLast (List.cons_ne_nil d ds)).time + 1)
              (acc ++ (d :: ds)) (attempt + 1)
          else some (acc ++ (d :: ds), attempt + 1)

/-- `HyperliquidDataCollector.get_historical_funding_rates`: run the loop and
return the accumulated records sorted by `time`. -/
def hyperCollectorRetrieve (src : Source) (startTime endTime : Int)
    (limit fuel : ℕ) : Option (List FundingRecord × ℕ) :=
  (hyperCollectorLoop src endTime limit fuel startTime [] 0).map
    (fun r => (sortByTime r.1, r.2))

/-- Python division, which raises `ZeroDivisionError` on a zero divisor
instead of returning a value. -/
def pyDiv (a b : ℚ) : Option ℚ :=
  if b = 0 then none else some (a / b)

/-- The annualized difference computed inside the matched branch of
`compare_funding_rates_over_time`:
`diff_rate * (24/multiplier * 365) * 100` with
`diff_rate = hyper_rate * multiplier - binance_rate`; the division
`24/multiplier` raises when `multiplier` is zero. -/
def annualizedDiffE (hyperRate binanceRate multiplier : ℚ) : Option ℚ :=
  (pyDiv 24 multiplier).map
    (fun q => (hyperRate * multiplier - binanceRate) * (q * 365) * 100)

/-- The two-pointer merge of `compare_funding_rates_over_time`, emitting the
matched record pairs: while both indices are in range, a pair within
`tol` of each other is emitted and both pointers advance; otherwise the
pointer at the earlier timestamp advances.  The loop is phrased with an
explicit step bound `n` so that it is structurally recursive; every
iteration removes at least one record, so `n = as.length + bs.length`
(supplied by `reconcile`) always suffices. -/
def reconcileF (tol : Int) : ℕ → List FundingRecord → List FundingRecord →
    List (FundingRecord × FundingRecord)
  | 0, _, _ => []
  | _ + 1, [], _ => []
  | _ + 1, _ :: _, [] => []
  | n + 1, a :: as, b :: bs =>
    if |a.time - b.time| ≤ tol then (a, b) :: reconcileF tol n as bs
    else if a.time < b.time then reconcileF tol n as (b :: bs)
    else reconcileF tol n (a :: as) bs

/-- The two-pointer merge of `compare_funding_rates_over_time` on two
retrieved series. -/
def reconcile (tol : Int) (hyperData binanceData : List FundingRecord) :
    List (FundingRecord × FundingRecord) :=
  reconcileF tol (hyperData.length + binanceData.length) hyperData binanceData

/-- One row of the result table built by `compare_funding_rates_over_time`
for a matched pair (timestamps and the percentage columns). -/
structure ResultRow where
  hyperTime : Int
  binanceTime : Int
  hyperRatePct : ℚ
  hyperAdjustedPct : ℚ
  binanceRatePct : ℚ
  annualizedDiffPct : ℚ
deriving DecidableEq, Repr

/-- Build the result row for one matched pair; raises (is `none`) exactly
when the annualization's division raises. -/
def mkRow (multiplier : ℚ) (p : FundingRecord × FundingRecord) :
    Option ResultRow :=
  (annualizedDiffE p.1.rate p.2.rate multiplier).map
    (fun d =>
      { hyperTime := p.1.time
        binanceTime := p.2.time
        hyperRatePct := p.1.rate * 100
        hyperAdjustedPct := p.1.rate * multiplier * 100
        binanceRatePct := p.2.rate * 100
        annualizedDiffPct := d })

/-- The row-building phase of `compare_funding_rates_over_time` on two
already-retrieved series: the merge-join rows in order, `none` when any
matched pair's annualization raises.  The Python code fuses the merge and
the row construction in one loop; since a row is appended exactly when a
pair is matched, the fused loop equals `reconcile` followed by row
construction. -/
def compareRows (tol : Int) (multiplier : ℚ)
    (hyperData binanceData : List FundingRecord) : Option (List ResultRow) :=
  (reconcile tol hyperData binanceData).mapM (mkRow multiplier)

/-- `TIME_TOLERANCE_MS = 300000` (5 minutes). -/
def TIME_TOLERANCE_MS : Int := 300000

/-! ## Helper lemmas -/

/-- Sortedness by the timestamp field, the retrievers' postcondition order. -/
def timeSorted (l : List FundingRecord) : Prop :=
  l.Pairwise (fun x y => x.time ≤ y.time)

instance (l : List FundingRecord) : Decidable (timeSorted l) :=
  inferInstanceAs
    (Decidable (l.Pairwise (fun x y => FundingRecord.time x ≤ FundingRecord.time y)))

lemma sortByTime_sorted (l : List FundingRecord) : timeSorted (sortByTime l) := by
  have h := @List.sorted_mergeSort FundingRecord
    (fun a b => decide (a.time ≤ b.time))
    (fun a b c h1 h2 =>
      decide_eq_true (le_trans (of_decide_eq_true h1) (of_decide_eq_true h2)))
    (fun a b => by
      rcases le_total a.time b.time with h | h <;> simp [h]) l
  exact h.imp (fun hab => of_decide_eq_true hab)

lemma sortByTime_nil : sortByTime [] = [] := by
  simp [sortByTime]

/-- Any output of the sorting wrapper applied by the retrievers is sorted. -/
lemma map_sort_sorted (o : Option (List FundingRecord × ℕ))
    (l : List FundingRecord) (n : ℕ)
    (h : o.map (fun r => (sortByTime r.1, r.2)) = some (l, n)) : timeSorted l := by
  cases o with
  | none => simp at h
  | some r =>
      simp only [Option.map_some', Option.some.injEq, Prod.mk.injEq] at h
      rw [← h.1]
      exact sortByTime_sorted r.1

/-- Every pair emitted by the bounded merge respects the tolerance. -/
lemma reconcileF_tol (tol : Int) :
    ∀ (n : ℕ) (as bs : List FundingRecord) (p : FundingRecord × FundingRecord),
      p ∈ reconcileF tol n as bs → |p.1.time - p.2.time| ≤ tol := by
  intro n
  induction n with
  | zero => intro as bs p hp; simp [reconcileF] at hp
  | succ n ih =>
    intro as bs p hp
    match as, bs with
    | [], _ => simp [reconcileF] at hp
    | _ :: _, [] => simp [reconcileF] at hp
    | a :: as, b :: bs =>
      rw [reconcileF] at hp
      by_cases h1 : |a.time - b.time| ≤ tol
      · rw [if_pos h1] at hp
        rcases List.mem_cons.mp hp with h | h
        · rw [h]; exact h1
        · exact ih as bs p h
      · rw [if_neg h1] at hp
        by_cases h2 : a.time < b.time
        · rw [if_pos h2] at hp; exact ih as (b :: bs) p hp
        · rw [if_neg h2] at hp; exact ih (a :: as) bs p hp

/-- The venue-A members of the emitted pairs are consumed from `as` in
order, each at most once. -/
lemma reconcileF_fst_sublist (tol : Int) :
    ∀ (n : ℕ) (as bs : List FundingRecord),
      ((reconcileF tol n as bs).map Prod.fst).Sublist as := by
  intro n
  induction n with
  | zero => intro as bs; simp [reconcileF]
  | succ n ih =>
    intro as bs
    match as, bs with
    | [], _ => simp [reconcileF]
    | _ :: _, [] => simp [reconcileF]
    | a :: as, b :: bs =>
      rw [reconcileF]
      by_cases h1 : |a.time - b.time| ≤ tol
      · rw [if_pos h1]
        simpa using List.Sublist.cons₂ a (ih as bs)
      · rw [if_neg h1]
        by_cases h2 : a.time < b.time
        · rw [if_pos h2]; exact List.Sublist.cons a (ih as (b :: bs))
        · rw [if_neg h2]; exact ih (a :: as) bs

/-- The venue-B members of the emitted pairs are consumed from `bs` in
order, each at most once. -/
lemma reconcileF_snd_sublist (tol : Int) :
    ∀ (n : ℕ) (as bs : List FundingRecord),
      ((reconcileF tol n as bs).map Prod.snd).Sublist bs := by
  intro n
  induction n with
  | zero => intro as bs; simp [reconcileF]
  | succ n ih =>
    intro as bs
    match as, bs with
    | [], _ => simp [reconcileF]
    | _ :: _, [] => simp [reconcileF]
    | a :: as, b :: bs =>
      rw [reconcileF]
      by_cases h1 : |a.time - b.time| ≤ tol
      · rw [if_pos h1]
        simpa using List.Sublist.cons₂ b (ih as bs)
      · rw [if_neg h1]
        by_cases h2 : a.time < b.time
        · rw [if_pos h2]; exact ih as (b :: bs)
        · rw [if_neg h2]; exact List.Sublist.cons b (ih (a :: as) bs)

/-- Against a source whose every attempt fails, the Hyperliquid loop counts
`maxRetries + 1 - r` further attempts from failure count `r` and then exits
with the accumulator unchanged. -/
lemma hyperLoop_allFail (src : Source) (hsrc : ∀ k, src k = FetchResult.fail)
    (e : Int) (mx mr : ℕ) (cur : Int) (hcur : cur ≤ e)
    (acc : List FundingRecord) :
    ∀ (fuel r a : ℕ), r ≤ mr → mr + 1 - r ≤ fuel →
      hyperLoop src e mx mr fuel cur r acc a = some (acc, a + (mr + 1 - r)) := by
  intro fuel
  induction fuel with
  | zero => intro r a hr hf; omega
  | succ n ih =>
    intro r a hr hf
    rw [hyperLoop, if_neg (not_lt.mpr hcur), hsrc a]
    by_cases hstop : mr < r + 1
    · simp only [if_pos hstop]
      have hone : mr + 1 - r = 1 := by omega
      rw [hone]
    · simp only [if_neg hstop]
      rw [ih (r + 1) (a + 1) (by omega) (by omega)]
      have : a + 1 + (mr + 1 - (r + 1)) = a + (mr + 1 - r) := by omega
      rw [this]

/-- Against a source whose every attempt fails, the Binance loop never
exits: transport failures are not counted against any budget and the
cursor never moves. -/
lemma binanceLoop_allFail (src : Source) (hsrc : ∀ k, src k = FetchResult.fail)
    (e : Int) (mr : ℕ) (cur : Int) (hcur : cur ≤ e)
    (acc : List FundingRecord) :
    ∀ (fuel r a : ℕ), binanceLoop src e mr fuel cur r acc a = none := by
  intro fuel
  induction fuel with
  | zero => intro r a; rw [binanceLoop]
  | succ n ih =>
    intro r a
    rw [binanceLoop, if_neg (not_lt.mpr hcur), hsrc a]
    exact ih r (a + 1)

/-- With `multiplier = 0`, building any row raises at `24/multiplier`. -/
lemma mkRow_zero (p : FundingRecord × FundingRecord) : mkRow 0 p = none := by
  simp [mkRow, annualizedDiffE, pyDiv]

lemma reconcileF_nil_left (tol : Int) (m : ℕ) (bs : List FundingRecord) :
    reconcileF tol m [] bs = [] := by
  cases m with
  | zero => rfl
  | succ k => rfl

lemma reconcileF_nil_right (tol : Int) (m : ℕ) (as : List FundingRecord) :
    reconcileF tol m as [] = [] := by
  cases m with
  | zero => rfl
  | succ k =>
    cases as with
    | nil => rfl
    | cons a as => rfl

/-- The step bound of the merge is irrelevant once it covers the combined
length of the inputs, so `reconcile` computes the unbounded two-pointer
loop of the source. -/
lemma reconcileF_fuel_irrelevant (tol : Int) :
    ∀ (n m : ℕ) (as bs : List FundingRecord),
      as.length + bs.length ≤ n → as.length + bs.length ≤ m →
      reconcileF tol n as bs = reconcileF tol m as bs := by
  intro n
  induction n with
  | zero =>
    intro m as bs hn hm
    match as, bs with
    | [], bs => rw [reconcileF_nil_left, reconcileF_nil_left]
    | a :: as, bs => simp at hn
  | succ n ih =>
    intro m as bs hn hm
    match as, bs with
    | [], bs => rw [reconcileF_nil_left, reconcileF_nil_left]
    | a :: as, [] => rw [reconcileF_nil_right, reconcileF_nil_right]
    | a :: as, b :: bs =>
      obtain ⟨k, rfl⟩ : ∃ k, m = k + 1 := ⟨m - 1, by simp at hm; omega⟩
      simp only [List.length_cons] at hn hm
      rw [reconcileF, reconcileF]
      by_cases h1 : |a.time - b.time| ≤ tol
      · rw [if_pos h1, if_pos h1,
          ih k as bs (by omega) (by omega)]
      · rw [if_neg h1, if_neg h1]
        by_cases h2 : a.time < b.time
        · rw [if_pos h2, if_pos h2]
          exact ih k as (b :: bs) (by simp; omega) (by simp; omega)
        · rw [if_neg h2, if_neg h2]
          exact ih k (a :: as) bs (by simp; omega) (by simp; omega)

/-! ## Claims -/

/-- C4: for every pair of input series and every tolerance, every pair
emitted by the two-pointer merge of `compare_funding_rates_over_time`
satisfies `abs(a.timestamp_ms - b.timestamp_ms) <= tolerance_ms`. -/
theorem C4_tolerance_bound (tol : Int) (seriesA seriesB : List FundingRecord)
    (p : FundingRecord × FundingRecord)
    (hp : p ∈ reconcile tol seriesA seriesB) :
    |p.1.time - p.2.time| ≤ tol :=
  reconcileF_tol tol _ seriesA seriesB p hp

/-- Witness for C4 at the spec's scenario: the pair (1000, 1100) is emitted
at tolerance 300 and its timestamp gap is within tolerance. -/
theorem C4_tolerance_bound_witness :
    ((⟨1000, 1⟩, ⟨1100, 2⟩) : FundingRecord × FundingRecord) ∈
      reconcile 300 [⟨1000, 1⟩, ⟨5000, 2⟩] [⟨1100, 2⟩, ⟨5100, 3⟩]
    ∧ |((⟨1000, 1⟩ : FundingRecord)).time - ((⟨1100, 2⟩ : FundingRecord)).time| ≤ 300 :=
  ⟨by decide,
   C4_tolerance_bound 300 [⟨1000, 1⟩, ⟨5000, 2⟩] [⟨1100, 2⟩, ⟨5100, 3⟩]
     (⟨1000, 1⟩, ⟨1100, 2⟩) (by decide)⟩

/-- C5: the annualized difference is
`(rate_a * multiplier - rate_b) * (24/multiplier * 365) * 100`; at
`rate_a = 0.0001`, `rate_b = 0.0003`, `multiplier = 8` it equals 54.75. -/
theorem C5_annualization (a b m : ℚ) (hm : m ≠ 0) :
    annualizedDiffE a b m = some ((a * m - b) * (24 / m * 365) * 100)
    ∧ annualizedDiffE (1/10000) (3/10000) 8 = some (54.75 : ℚ) := by
  constructor
  · simp [annualizedDiffE, pyDiv, hm]
  · norm_num [annualizedDiffE, pyDiv]

/-- Witness for C5: the concrete instance of the annualization formula. -/
theorem C5_annualization_witness :
    (8 : ℚ) ≠ 0 ∧ annualizedDiffE (1/10000) (3/10000) 8 = some (54.75 : ℚ) :=
  ⟨by norm_num, (C5_annualization (1/10000) (3/10000) 8 (by norm_num)).2⟩

/-- C6: every series returned by any of the four retrieval functions is
sorted ascending by timestamp, whatever the order pages arrived in.  The
four implications are independent: each certifies one retriever's run on
its own. -/
theorem C6_monotone (src : Source) (s e : Int) (mx mr limit fuel : ℕ)
    (l : List FundingRecord) (n : ℕ) :
    (hyperRetrieve src s e mx mr fuel = some (l, n) → timeSorted l)
    ∧ (binanceRetrieve src s e mr fuel = some (l, n) → timeSorted l)
    ∧ (binanceCollectorRetrieve src s e fuel = some (l, n) → timeSorted l)
    ∧ (hyperCollectorRetrieve src s e limit fuel = some (l, n) → timeSorted l) :=
  ⟨fun h => map_sort_sorted _ _ _ h, fun h => map_sort_sorted _ _ _ h,
   fun h => map_sort_sorted _ _ _ h, fun h => map_sort_sorted _ _ _ h⟩

unseal List.merge List.mergeSort in
/-- Witness for C6: a source that always returns the one-record page
`[(5, 1)]`; all four retrievers terminate with the same output, and each
implication of `C6_monotone` applies to its run. -/
theorem C6_monotone_witness :
    hyperRetrieve (fun _ => FetchResult.ok [⟨5, 1⟩]) 0 5 500 0 3 = some ([⟨5, 1⟩], 1)
    ∧ binanceRetrieve (fun _ => FetchResult.ok [⟨5, 1⟩]) 0 5 0 3 = some ([⟨5, 1⟩], 1)
    ∧ binanceCollectorRetrieve (fun _ => FetchResult.ok [⟨5, 1⟩]) 0 5 3 = some ([⟨5, 1⟩], 1)
    ∧ hyperCollectorRetrieve (fun _ => FetchResult.ok [⟨5, 1⟩]) 0 5 500 3 = some ([⟨5, 1⟩], 1)
    ∧ timeSorted [⟨5, 1⟩] :=
  ⟨by decide, by decide, by decide, by decide,
   (C6_monotone (fun _ => FetchResult.ok [⟨5, 1⟩]) 0 5 500 0 500 3
     [⟨5, 1⟩] 1).2.2.2 (by decide)⟩

/-- C7: no record is reused across two emitted pairs — the venue-A members
of the merge output are a sublist of series A (positions consumed in order,
each at most once), and likewise for venue B. -/
theorem C7_no_reuse (tol : Int) (seriesA seriesB : List FundingRecord) :
    ((reconcile tol seriesA seriesB).map Prod.fst).Sublist seriesA
    ∧ ((reconcile tol seriesA seriesB).map Prod.snd).Sublist seriesB :=
  ⟨reconcileF_fst_sublist tol _ seriesA seriesB,
   reconcileF_snd_sublist tol _ seriesA seriesB⟩

/-- C10: for sorted inputs the emitted pairs are ascending in the venue-B
member's timestamp as well, because the B pointer only ever advances. -/
theorem C10_b_timestamps_ascending (tol : Int)
    (seriesA seriesB : List FundingRecord)
    (_ha : timeSorted seriesA) (hb : timeSorted seriesB) :
    timeSorted ((reconcile tol seriesA seriesB).map Prod.snd) :=
  List.Pairwise.sublist (reconcileF_snd_sublist tol _ seriesA seriesB) hb

/-- Witness for C10 at the spec's scenario: both inputs sorted, and the
emitted pairs' venue-B timestamps ascend. -/
theorem C10_b_timestamps_ascending_witness :
    timeSorted [(⟨1000, 1⟩ : FundingRecord), ⟨5000, 2⟩]
    ∧ timeSorted [(⟨1100, 2⟩ : FundingRecord), ⟨5100, 3⟩]
    ∧ timeSorted
        ((reconcile 300 [⟨1000, 1⟩, ⟨5000, 2⟩] [⟨1100, 2⟩, ⟨5100, 3⟩]).map Prod.snd) :=
  ⟨by decide, by decide,
   C10_b_timestamps_ascending 300 [⟨1000, 1⟩, ⟨5000, 2⟩] [⟨1100, 2⟩, ⟨5100, 3⟩]
     (by decide) (by decide)⟩

/-- C1 counterexample: `get_binance_funding_history` does not respect the
retry budget on transport failures — its `except` arm retries the same
cursor without counting.  With `max_retries = 5` the claim predicts
termination after 6 attempts; against an always-failing source the loop is
still running after 20 iterations. -/
theorem C1_counterexample :
    binanceRetrieve (fun _ => FetchResult.fail) 0 10 5 20 = none := by decide

/-- C1 (amended): against a source whose every fetch fails,
`get_hyperliquid_funding_history_paginated` terminates after exactly
`max_retries + 1` attempts and returns the (empty) accumulated series,
while `get_binance_funding_history` never terminates, whatever the
iteration bound: its budget counts consecutive empty pages, not transport
failures. -/
theorem C1_amended_retry_budget (src : Source)
    (hsrc : ∀ k, src k = FetchResult.fail) (s e : Int) (hse : s ≤ e)
    (mx mr fuel fuel2 : ℕ) (hf : mr + 1 ≤ fuel) :
    hyperRetrieve src s e mx mr fuel = some ([], mr + 1)
    ∧ binanceRetrieve src s e mr fuel2 = none := by
  constructor
  · unfold hyperRetrieve
    rw [hyperLoop_allFail src hsrc e mx mr s hse [] fuel 0 0 (by omega) (by omega)]
    simp [sortByTime_nil]
  · unfold binanceRetrieve
    rw [binanceLoop_allFail src hsrc e mr s hse [] fuel2 0 0]
    rfl

/-- Witness for C1 (amended) at `max_retries = 5`. -/
theorem C1_amended_retry_budget_witness :
    hyperRetrieve (fun _ => FetchResult.fail) 0 10 500 5 6 = some ([], 6)
    ∧ binanceRetrieve (fun _ => FetchResult.fail) 0 10 5 20 = none :=
  C1_amended_retry_budget (fun _ => FetchResult.fail) (fun _ => rfl) 0 10
    (by decide) 500 5 6 20 (by decide)

/-- C2 counterexample: in `get_binance_funding_history` an empty page
increments `retry_count` (it consumes the retry budget) and leaves the
cursor in place.  With `max_retries = 5` over a 100-day window, an
always-empty source ends the run after 6 attempts by budget exhaustion;
under the claim the cursor would have advanced one day per attempt and the
loop would still be probing. -/
theorem C2_counterexample :
    binanceLoop (fun _ => FetchResult.ok []) (100 * oneDayMs) 5 20 0 0 [] 0
      = some ([], 6) := by decide

/-- C2 (amended): on a successful empty page,
`get_hyperliquid_funding_history_paginated` and both collector loops
advance the cursor by exactly one day without touching the retry budget,
whereas `get_binance_funding_history` keeps the cursor in place and
consumes the budget (terminating the run once `retry_count` exceeds
`max_retries`). -/
theorem C2_amended_empty_page (src : Source) (endT : Int) (mx mr fuel : ℕ)
    (cur : Int) (r : ℕ) (acc : List FundingRecord) (a : ℕ)
    (hcur : cur ≤ endT) (hsrc : src a = FetchResult.ok []) :
    hyperLoop src endT mx mr (fuel + 1) cur r acc a
      = hyperLoop src endT mx mr fuel (cur + oneDayMs) r acc (a + 1)
    ∧ binanceCollectorLoop src endT (fuel + 1) cur acc a
      = binanceCollectorLoop src endT fuel (cur + oneDayMs) acc (a + 1)
    ∧ hyperCollectorLoop src endT mx (fuel + 1) cur acc a
      = hyperCollectorLoop src endT mx fuel (cur + oneDayMs) acc (a + 1)
    ∧ (r + 1 ≤ mr → binanceLoop src endT mr (fuel + 1) cur r acc a
        = binanceLoop src endT mr fuel cur (r + 1) acc (a + 1))
    ∧ (mr < r + 1 → binanceLoop src endT mr (fuel + 1) cur r acc a
        = some (acc, a + 1)) := by
  refine ⟨?_, ?_, ?_, fun hr => ?_, fun hr => ?_⟩
  · rw [hyperLoop, if_neg (not_lt.mpr hcur), hsrc]
  · rw [binanceCollectorLoop, if_neg (not_lt.mpr hcur), hsrc]
  · rw [hyperCollectorLoop, if_neg (not_lt.mpr hcur), hsrc]
  · rw [binanceLoop, if_neg (not_lt.mpr hcur), hsrc]
    exact if_neg (not_lt.mpr hr)
  · rw [binanceLoop, if_neg (not_lt.mpr hcur), hsrc]
    exact if_pos hr

/-- Witness for C2 (amended) one step into each loop. -/
theorem C2_amended_empty_page_witness :
    hyperLoop (fun _ => FetchResult.ok []) oneDayMs 500 5 3 0 0 [] 0
      = hyperLoop (fun _ => FetchResult.ok []) oneDayMs 500 5 2 oneDayMs 0 [] 1
    ∧ binanceLoop (fun _ => FetchResult.ok []) oneDayMs 5 3 0 0 [] 0
      = binanceLoop (fun _ => FetchResult.ok []) oneDayMs 5 2 0 1 [] 1 :=
  ⟨(C2_amended_empty_page (fun _ => FetchResult.ok []) oneDayMs 500 5 2 0 0 [] 0
      (by decide) rfl).1,
   (C2_amended_empty_page (fun _ => FetchResult.ok []) oneDayMs 500 5 2 0 0 [] 0
      (by decide) rfl).2.2.2.1 (by decide)⟩

/-- C8 counterexample: there is no validation of `period_multiplier`.
With multiplier 0 and no matched pair the comparison returns successfully
(an empty table); with a matched pair it fails only when the division
`24/multiplier` is actually evaluated inside the loop — not with a
validation error raised before any division. -/
theorem C8_counterexample :
    compareRows 300000 0 [] [] = some []
    ∧ compareRows 300000 0 [⟨0, 1⟩] [⟨0, 3⟩] = none := by
  constructor
  · decide
  · decide

/-- C8 (amended): `compare_funding_rates_over_time` performs no
`period_multiplier` validation: with multiplier 0 it completes and returns
an empty table whenever the merge finds no pair, and raises
`ZeroDivisionError` at the first matched pair's annualization otherwise. -/
theorem C8_amended_no_validation (tol : Int)
    (as bs as2 bs2 : List FundingRecord)
    (hmatch : reconcile tol as bs ≠ [])
    (hnone : reconcile tol as2 bs2 = []) :
    compareRows tol 0 as bs = none ∧ compareRows tol 0 as2 bs2 = some [] := by
  constructor
  · rcases h : reconcile tol as bs with _ | ⟨p, ps⟩
    · exact absurd h hmatch
    · unfold compareRows
      rw [h]
      simp [List.mapM.loop, mkRow_zero]
  · unfold compareRows
    rw [hnone]
    rfl

/-- Witness for C8 (amended): one matching pair at timestamp 0, and the
empty series. -/
theorem C8_amended_no_validation_witness :
    compareRows 300000 0 [⟨0, 1⟩] [⟨0, 3⟩] = none
    ∧ compareRows 300000 0 [] [] = some [] :=
  C8_amended_no_validation 300000 [⟨0, 1⟩] [⟨0, 3⟩] [] [] (by decide) (by decide)

unseal List.merge List.mergeSort in
/-- C9 counterexample: a malformed window (`start > end`) is not rejected.
Both retrieval functions issue zero fetches and silently return an empty
series (attempt count 0), instead of failing with an InvalidParameter
error before any fetch. -/
theorem C9_counterexample :
    hyperRetrieve (fun _ => FetchResult.fail) 1 0 500 5 10 = some ([], 0)
    ∧ binanceRetrieve (fun _ => FetchResult.fail) 1 0 5 10 = some ([], 0) := by
  constructor
  · decide
  · decide

/-- C9 (amended): for `start > end` the `while current_start <= end_time`
guard is false at entry, so every retrieval function returns the empty
series after zero fetch attempts; no error of any kind is raised. -/
theorem C9_amended_silent_empty (src : Source) (s e : Int) (he : e < s)
    (mx mr limit fuel : ℕ) (hf : 0 < fuel) :
    hyperRetrieve src s e mx mr fuel = some ([], 0)
    ∧ binanceRetrieve src s e mr fuel = some ([], 0)
    ∧ binanceCollectorRetrieve src s e fuel = some ([], 0)
    ∧ hyperCollectorRetrieve src s e limit fuel = some ([], 0) := by
  obtain ⟨n, rfl⟩ : ∃ n, fuel = n + 1 := ⟨fuel - 1, by omega⟩
  refine ⟨?_, ?_, ?_, ?_⟩
  · unfold hyperRetrieve
    rw [hyperLoop, if_pos he]
    simp [sortByTime_nil]
  · unfold binanceRetrieve
    rw [binanceLoop, if_pos he]
    simp [sortByTime_nil]
  · unfold binanceCollectorRetrieve
    rw [binanceCollectorLoop, if_pos he]
    simp [sortByTime_nil]
  · unfold hyperCollectorRetrieve
    rw [hyperCollectorLoop, if_pos he]
    simp [sortByTime_nil]

/-- Witness for C9 (amended) at the window `[1, 0]`. -/
theorem C9_amended_silent_empty_witness :
    hyperRetrieve (fun _ => FetchResult.fail) 1 0 500 5 10 = some ([], 0)
    ∧ binanceRetrieve (fun _ => FetchResult.fail) 1 0 5 10 = some ([], 0)
    ∧ binanceCollectorRetrieve (fun _ => FetchResult.fail) 1 0 10 = some ([], 0)
    ∧ hyperCollectorRetrieve (fun _ => FetchResult.fail) 1 0 500 10 = some ([], 0) :=
  C9_amended_silent_empty (fun _ => FetchResult.fail) 1 0 (by decide) 500 5 500 10
    (by decide)
